import Mathlib

/-!
Shallow embedding of `sota-rag-upgrade/fix-env-and-deploy.py`.

The script is a one-shot deployment utility: it repairs a `.env` file whose
`OPENAI_API_KEY` value may have been split across several physical lines,
synthesizes n8n credential records from the recovered keys, imports them into
a running container via the docker CLI, and patches two workflow JSON files,
remapping five hardcoded legacy credential identifiers to freshly generated
ones.

Files are modelled as lists of lines (each string is one physical line, the
trailing newline removed).  External processes (`subprocess.run`) are modelled
by an injected function `run : List String → Int` giving the return code of
each argument vector, and side effects are accumulated in an explicit trace.
Random identifier generation (`secrets.token_hex(8)`) is modelled by passing
the five generated identifiers as parameters.
-/

/-- Python whitespace characters handled by `str.strip()` (the ASCII ones;
the inputs manipulated by the script contain no exotic Unicode spaces). -/
def pyws (c : Char) : Bool :=
  c = ' ' || c = '\t' || c = '\n' || c = '\r' || c = '\x0b' || c = '\x0c'

/-- Python `line.strip()`: drop leading and trailing whitespace. -/
def pystrip (s : String) : String :=
  ⟨((s.data.dropWhile pyws).reverse.dropWhile pyws).reverse⟩

/-- Python `s.startswith(p)`. -/
def pystartswith (s p : String) : Bool :=
  p.data.isPrefixOf s.data

/-- Python `s.split("=", 1)[1]`: everything after the first `=`.  The script
only ever applies this to lines that start with `"KEY="`, so a first `=` is
always present there. -/
def afterEq (s : String) : String :=
  ⟨(s.data.dropWhile (fun c => c ≠ '=')).tail⟩

/-- Python truthiness of `d.get(k)`: `None` (absent) and `""` are falsy. -/
def pyTruthy (o : Option String) : Bool :=
  o.getD "" != ""

/-- Python `dict` assignment `d[k] = v`: replace the value of an existing key
in place (original position kept, as for `dict` insertion order), otherwise
append the new pair at the end. -/
def dictInsert : List (String × String) → String → String → List (String × String)
  | [], k, v => [(k, v)]
  | kv :: rest, k, v => if kv.1 == k then (k, v) :: rest else kv :: dictInsert rest k v

/-- Python `d.get(k)` on a dict modelled as an association list. -/
def dictGet (d : List (String × String)) (k : String) : Option String :=
  (d.find? (fun kv => kv.1 == k)).map (·.2)

/-- The stop condition of the inner `while` of `fix_env_file` (line 38-40):
`lines[j].strip().startswith(("MISTRAL_API_KEY", "COHERE_API_KEY", "#"))`. -/
def stop3 (s : String) : Bool :=
  pystartswith s "MISTRAL_API_KEY" || pystartswith s "COHERE_API_KEY" || pystartswith s "#"

/-- The inner `while` loop of `fix_env_file` (lines 37-42): starting from the
value recovered so far, keep appending the stripped following lines until one
satisfies `stop3`; returns the reconstructed value together with the unread
remainder of the file (beginning at the stopping line, which the outer loop
then processes itself, since the source sets `i = j - 1` and then `i += 1`). -/
def absorb (acc : String) : List String → String × List String
  | [] => (acc, [])
  | l :: rest =>
    if stop3 (pystrip l) then (acc, l :: rest) else absorb (acc ++ pystrip l) rest

/-- The outer `while` loop of `fix_env_file` (lines 29-56), as a function of
the unread lines, the `api_keys` dict and the `env_lines` accumulator. -/
def scan : List String → List (String × String) → List String → List (String × String) × List String
  | [], keys, env => (keys, env)
  | l :: rest, keys, env =>
    let s := pystrip l
    if pystartswith s "OPENAI_API_KEY=" then
      scan (absorb (afterEq s) rest).2 (dictInsert keys "OPENAI_API_KEY" (absorb (afterEq s) rest).1) env
    else if pystartswith s "MISTRAL_API_KEY=" then
      scan rest (dictInsert keys "MISTRAL_API_KEY" (afterEq s)) env
    else if pystartswith s "COHERE_API_KEY=" then
      scan rest (dictInsert keys "COHERE_API_KEY" (afterEq s)) env
    else if pystartswith s "ZEP_API_KEY=" then
      scan rest (dictInsert keys "ZEP_API_KEY" (afterEq s)) env
    else if !(pystartswith s "OPENAI_API_KEY" || pystartswith s "MISTRAL_API_KEY" || pystartswith s "COHERE_API_KEY") then
      scan rest keys (env ++ [l])
    else
      scan rest keys env
  termination_by ls _ _ => ls.length
  decreasing_by
    · have h : ∀ (acc : String) (ls : List String), (absorb acc ls).2.length ≤ ls.length := by
        intro acc ls
        induction ls generalizing acc with
        | nil => simp [absorb]
        | cons x xs ih =>
          by_cases hx : stop3 (pystrip x) = true
          · simp [absorb, hx]
          · simp only [absorb, hx, Bool.false_eq_true, if_false]
            exact Nat.le_succ_of_le (ih _)
      simpa using Nat.lt_succ_of_le (h _ _)
    all_goals simp

/-- The pure core of `fix_env_file`: scanning the lines of the existing `.env`
file with empty initial `api_keys` and `env_lines`. -/
def fix_env_pure (lines : List String) : List (String × String) × List String :=
  scan lines [] []

/-- Condition of line 66: `if value and value != "xxxxxx"`. -/
def keepVal (v : String) : Bool :=
  v != "" && v != "xxxxxx"

/-- The write-back of `fix_env_file` (lines 58-67): the retained lines, then a
blank line and a section comment (from `f.write("\n# SOTA RAG API Keys
(Corrected)\n")`), then one `KEY=value` line per captured key whose value is
non-empty and not the placeholder. -/
def env_output (keys : List (String × String)) (envLines : List String) : List String :=
  envLines ++ ["", "# SOTA RAG API Keys (Corrected)"]
    ++ (keys.filter (fun kv => keepVal kv.2)).map (fun kv => kv.1 ++ "=" ++ kv.2)

/-- Side effects of the script, recorded as an explicit trace. -/
inductive Eff where
  | readFile (path : String)
  | writeFile (path : String)
  | proc (args : List String)
  deriving DecidableEq, Repr

/-- `fix_env_file` (lines 16-69).  The `.env` file is `none` when it does not
exist.  Returns the `api_keys` dict, the new file-system state of `.env`, and
the trace of file operations performed. -/
def fix_env_file (fs : Option (List String)) : List (String × String) × Option (List String) × List Eff :=
  match fs with
  | none => ([], none, [])
  | some lines =>
    ((fix_env_pure lines).1,
     some (env_output (fix_env_pure lines).1 (fix_env_pure lines).2),
     [Eff.readFile ".env", Eff.writeFile ".env"])

/-- JSON-ish values appearing in credential `data` fields (strings, plus the
numeric `port` of the Postgres record). -/
inductive JVal where
  | s (v : String)
  | n (v : Nat)
  deriving DecidableEq, Repr

/-- An n8n credential record as built by `create_credentials_directly`. -/
structure Credential where
  id : String
  name : String
  type_ : String
  data : List (String × JVal)
  deriving DecidableEq, Repr

/-- The `cred_ids` dict built at lines 88-94: one freshly generated identifier
per credential family, built unconditionally for all five families. -/
def mk_cred_ids (ido idm idsb idp idc : String) : List (String × String) :=
  [("openai", ido), ("mistral", idm), ("supabase", idsb), ("postgres", idp), ("cohere", idc)]

/-- The read loop at lines 80-85: scan the (raw, unstripped) lines of `.env`
for `SERVICE_ROLE_KEY=` and `POSTGRES_PASSWORD=`, keeping the stripped value
after the first `=` of the last such line. -/
def read_sr_pp : List String → String × String → String × String
  | [], acc => acc
  | l :: ls, acc =>
    if pystartswith l "SERVICE_ROLE_KEY=" then read_sr_pp ls (pystrip (afterEq l), acc.2)
    else if pystartswith l "POSTGRES_PASSWORD=" then read_sr_pp ls (acc.1, pystrip (afterEq l))
    else read_sr_pp ls acc

/-- `create_credentials_directly` (lines 72-167), with the `.env` contents and
the five generated identifiers passed explicitly.  Returns the ordered list of
credential records actually built, together with the `cred_ids` dict. -/
def create_credentials_directly (api_keys : List (String × String)) (envLines : List String)
    (ido idm idsb idp idc : String) : List Credential × List (String × String) :=
  let srpp := read_sr_pp envLines ("", "")
  let service_role_key := srpp.1
  let postgres_password := srpp.2
  let cred_ids := mk_cred_ids ido idm idsb idp idc
  let creds :=
    (if pyTruthy (dictGet api_keys "OPENAI_API_KEY") then
      [{ id := ido, name := "OpenAI SOTA RAG", type_ := "openAiApi",
         data := [("apiKey", JVal.s ((dictGet api_keys "OPENAI_API_KEY").getD ""))] }]
     else [])
    ++ (if pyTruthy (dictGet api_keys "MISTRAL_API_KEY") then
      [{ id := idm, name := "Mistral SOTA RAG", type_ := "mistralCloudApi",
         data := [("apiKey", JVal.s ((dictGet api_keys "MISTRAL_API_KEY").getD ""))] }]
     else [])
    ++ (if service_role_key != "" then
      [{ id := idsb, name := "Supabase SOTA RAG", type_ := "supabaseApi",
         data := [("host", JVal.s "http://kong:8000"), ("serviceRole", JVal.s service_role_key)] }]
     else [])
    ++ (if postgres_password != "" then
      [{ id := idp, name := "Postgres SOTA RAG", type_ := "postgres",
         data := [("host", JVal.s "supabase-db"), ("port", JVal.n 5432),
                  ("database", JVal.s "postgres"), ("user", JVal.s "supabase_admin"),
                  ("password", JVal.s postgres_password)] }]
     else [])
    ++ (if pyTruthy (dictGet api_keys "COHERE_API_KEY")
           && (dictGet api_keys "COHERE_API_KEY").getD "" != "xxxxxx" then
      [{ id := idc, name := "Cohere SOTA RAG", type_ := "httpHeaderAuth",
         data := [("name", JVal.s "Authorization"),
                  ("value", JVal.s ("Bearer " ++ (dictGet api_keys "COHERE_API_KEY").getD ""))] }]
     else [])
  (creds, cred_ids)

/-- The `docker cp` command of `import_credentials` (lines 180-184). -/
def credCpCmd : List String :=
  ["docker", "cp", "/tmp/sota_creds.json", "n8n:/tmp/creds.json"]

/-- The `docker exec` import command of `import_credentials` (lines 189-200). -/
def credImportCmd : List String :=
  ["docker", "exec", "n8n", "n8n", "import:credentials", "--input=/tmp/creds.json"]

/-- `import_credentials` (lines 170-206): no-op returning `false` on an empty
list; otherwise serialize to `/tmp/sota_creds.json`, `docker cp` it into the
container and run the in-container import, failing fast on a non-zero return
code of either command.  `run` gives the return code of each invocation. -/
def import_credentials (run : List String → Int) (credentials : List Credential) : Bool × List Eff :=
  if credentials.isEmpty then (false, [])
  else if run credCpCmd != 0 then
    (false, [Eff.writeFile "/tmp/sota_creds.json", Eff.proc credCpCmd])
  else if run credImportCmd != 0 then
    (false, [Eff.writeFile "/tmp/sota_creds.json", Eff.proc credCpCmd, Eff.proc credImportCmd])
  else
    (true, [Eff.writeFile "/tmp/sota_creds.json", Eff.proc credCpCmd, Eff.proc credImportCmd])

/-- One entry of a node's `credentials` mapping: an optional `id` plus the
remaining fields, preserved verbatim. -/
structure CredInfo where
  id : Option String
  extra : List (String × String)
  deriving DecidableEq, Repr

/-- A node of a workflow document: an optional `credentials` mapping (absent
when the node carries no `"credentials"` key) plus all other node content. -/
structure Node where
  credentials : Option (List (String × CredInfo))
  extra : List (String × String)
  deriving DecidableEq, Repr

/-- A workflow document: the `nodes` array (`workflow.get("nodes", [])`; a
missing array is the empty list) plus all other document content. -/
structure Workflow where
  nodes : List Node
  extra : List (String × String)
  deriving DecidableEq, Repr

/-- The `id_map` built at lines 217-223 from the `cred_ids` dict.  The four
bracket accesses `cred_ids["openai"]` … `cred_ids["postgres"]` raise `KeyError`
when absent (modelled as `none`); the Cohere entry uses
`cred_ids.get("cohere", cred_ids["openai"])`. -/
def mkIdMap (cred_ids : List (String × String)) : Option (List (String × String)) :=
  match dictGet cred_ids "openai", dictGet cred_ids "mistral",
        dictGet cred_ids "supabase", dictGet cred_ids "postgres" with
  | some o, some m, some sb, some p =>
    some [("MM0xMOJkVoJoWOLP", o), ("rmhBwssORDiWOBKN", m), ("wwbxqbDc4H2RPQ1Y", sb),
          ("7aOzWLaZcz9dgeSv", p), ("SaJzpmSGdmOFSPDn", (dictGet cred_ids "cohere").getD o)]
  | _, _, _, _ => none

/-- Lines 229-232 for a single entry of a node's `credentials` dict: if the
current id (`cred_info.get("id", "")`) is a key of `id_map`, replace it and
count one update. -/
def update_cred (m : List (String × String)) (c : CredInfo) : CredInfo × Nat :=
  match dictGet m (c.id.getD "") with
  | some nid => ({ c with id := some nid }, 1)
  | none => (c, 0)

/-- Lines 228-232: update every entry of a node's `credentials` dict, summing
the update counts. -/
def update_creds (m : List (String × String)) : List (String × CredInfo) → List (String × CredInfo) × Nat
  | [] => ([], 0)
  | (t, c) :: rest =>
    ((t, (update_cred m c).1) :: (update_creds m rest).1, (update_cred m c).2 + (update_creds m rest).2)

/-- Lines 227-232 for one node: nodes without a `"credentials"` key are left
untouched. -/
def update_node (m : List (String × String)) (n : Node) : Node × Nat :=
  match n.credentials with
  | none => (n, 0)
  | some cs => ({ n with credentials := some (update_creds m cs).1 }, (update_creds m cs).2)

/-- Lines 226-232 over the whole `nodes` array. -/
def update_nodes (m : List (String × String)) : List Node → List Node × Nat
  | [] => ([], 0)
  | n :: rest => ((update_node m n).1 :: (update_nodes m rest).1, (update_node m n).2 + (update_nodes m rest).2)

/-- The in-place workflow mutation of `update_and_import_workflow`
(lines 225-232). -/
def update_workflow (m : List (String × String)) (w : Workflow) : Workflow × Nat :=
  ({ w with nodes := (update_nodes m w.nodes).1 }, (update_nodes m w.nodes).2)

/-- Python `os.path.basename` for the slash-separated paths used here. -/
def basename (p : String) : String :=
  ⟨(p.data.reverse.takeWhile (fun c => c ≠ '/')).reverse⟩

/-- The `docker exec` import command of `update_and_import_workflow`. -/
def wfImportCmd : List String :=
  ["docker", "exec", "n8n", "n8n", "import:workflow", "--input=/tmp/import.json"]

/-- `update_and_import_workflow` (lines 209-263), for an already-parsed
workflow document.  Returns `none` when the `id_map` construction raises
(`cred_ids` missing one of the four bracket-accessed families); otherwise the
success flag, the patched document written to the temp file, the update count
(printed on success), and the effect trace. -/
def update_and_import_workflow (run : List String → Int) (path : String) (w : Workflow)
    (cred_ids : List (String × String)) : Option (Bool × Workflow × Nat × List Eff) :=
  match mkIdMap cred_ids with
  | none => none
  | some m =>
    let temp := "/tmp/sota_workflow_" ++ basename path
    let cp := ["docker", "cp", temp, "n8n:/tmp/import.json"]
    let pre := [Eff.readFile path, Eff.writeFile temp]
    if run cp == 0 then
      if run wfImportCmd == 0 then
        some (true, (update_workflow m w).1, (update_workflow m w).2, pre ++ [Eff.proc cp, Eff.proc wfImportCmd])
      else
        some (false, (update_workflow m w).1, (update_workflow m w).2, pre ++ [Eff.proc cp, Eff.proc wfImportCmd])
    else
      some (false, (update_workflow m w).1, (update_workflow m w).2, pre ++ [Eff.proc cp])

/-- The workflow loop of `main` (lines 285-289): skip missing files, attempt
the rest in order, count the successful imports.  `none` propagates a crash of
`update_and_import_workflow`. -/
def run_workflows (run : List String → Int) (cred_ids : List (String × String)) :
    List (String × Option Workflow) → Option Nat
  | [] => some 0
  | (_, none) :: rest => run_workflows run cred_ids rest
  | (p, some w) :: rest =>
    match update_and_import_workflow run p w cred_ids with
    | none => none
    | some (ok, _, _, _) => (run_workflows run cred_ids rest).map (fun k => (if ok then 1 else 0) + k)

/-- `main` (lines 266-297).  `fsEnv` is the `.env` contents (`none` when the
file does not exist), `wf1`/`wf2` the two workflow files in the fixed order of
the `workflows` list.  Returns `none` when the run dies on an uncaught
exception (`create_credentials_directly` re-opens `.env` unconditionally at
line 80), otherwise `some (exit code, number of workflows imported)`. -/
def mainFn (run : List String → Int) (ido idm idsb idp idc : String)
    (fsEnv : Option (List String)) (wf1 wf2 : Option Workflow) : Option (Nat × Nat) :=
  match (fix_env_file fsEnv).2.1 with
  | none => none
  | some envLines =>
    let api_keys := (fix_env_file fsEnv).1
    let cc := create_credentials_directly api_keys envLines ido idm idsb idp idc
    if !(import_credentials run cc.1).1 then some (1, 0)
    else
      match run_workflows run cc.2
          [("workflows/sota/knowledge-graph.json", wf1), ("workflows/sota/main-sota-rag.json", wf2)] with
      | none => none
      | some imported => some (0, imported)

/-- Concatenation of the stripped continuation lines, as accumulated by
`absorb`. -/
def joinStrip : List String → String
  | [] => ""
  | l :: rest => pystrip l ++ joinStrip rest

/-- The full rewritten `.env` produced by `fix_env_file` for an existing file. -/
def fix_env_output (lines : List String) : List String :=
  env_output (fix_env_pure lines).1 (fix_env_pure lines).2

/-- The credential list `main` hands to `import_credentials`: the records
built from the repaired key mapping and the rewritten `.env` contents. -/
def deployed_credentials (ido idm idsb idp idc : String) (env : List String) : List Credential :=
  (create_credentials_directly (fix_env_pure env).1 (fix_env_output env) ido idm idsb idp idc).1

/-- Spec-side count for C5, following the spec's words: the number of node
credential entries whose id matches a legacy identifier (a key of the remap
table). -/
def specMatchedCount (m : List (String × String)) (w : Workflow) : Nat :=
  (w.nodes.map (fun n =>
    match n.credentials with
    | none => 0
    | some cs => cs.countP (fun tc => (dictGet m (tc.2.id.getD "")).isSome))).sum

/-- A line (after stripping) that starts with `MISTRAL_API_KEY` or
`COHERE_API_KEY` but lacks the `=` right after the key name (claim C10). -/
def badMC (s : String) : Bool :=
  (pystartswith s "MISTRAL_API_KEY" && !pystartswith s "MISTRAL_API_KEY=")
  || (pystartswith s "COHERE_API_KEY" && !pystartswith s "COHERE_API_KEY=")

/-- The four key names `fix_env_file` can capture into `api_keys`
(lines 33-50). -/
def keyOk (k : String) : Bool :=
  k == "OPENAI_API_KEY" || k == "MISTRAL_API_KEY" || k == "COHERE_API_KEY" || k == "ZEP_API_KEY"

/-- Invariant of every line retained in `env_lines`: its stripped form starts
with none of the three dropped key prefixes (line 51-53), and it cannot be a
`ZEP_API_KEY=` line either, since those are captured at line 49. -/
def retOk (l : String) : Bool :=
  !pystartswith (pystrip l) "OPENAI_API_KEY" && !pystartswith (pystrip l) "MISTRAL_API_KEY"
  && !pystartswith (pystrip l) "COHERE_API_KEY" && !pystartswith (pystrip l) "ZEP_API_KEY="

/-! ### Prefix and stripping lemmas -/

theorem isPrefixOf_self_append (p r : List Char) : p.isPrefixOf (p ++ r) = true := by
  induction p with
  | nil => simp [List.isPrefixOf]
  | cons c cs ih => simp [List.isPrefixOf, ih]

theorem isPrefixOf_trans {p q s : List Char} (h1 : p.isPrefixOf q = true)
    (h2 : q.isPrefixOf s = true) : p.isPrefixOf s = true := by
  induction p generalizing q s with
  | nil => simp [List.isPrefixOf]
  | cons c cs ih =>
    cases q with
    | nil => simp [List.isPrefixOf] at h1
    | cons d ds =>
      cases s with
      | nil => simp [List.isPrefixOf] at h2
      | cons e es =>
        simp only [List.isPrefixOf, Bool.and_eq_true, beq_iff_eq] at h1 h2 ⊢
        exact ⟨h1.1.trans h2.1, ih h1.2 h2.2⟩

theorem isPrefixOf_cons_head {c d : Char} {p l : List Char}
    (h : (c :: p).isPrefixOf (d :: l) = true) : c = d := by
  simp only [List.isPrefixOf, Bool.and_eq_true, beq_iff_eq] at h
  exact h.1

theorem isPrefixOf_append_of_ws {p : List Char} (hp : ∀ c ∈ p, pyws c = false) :
    ∀ {T W : List Char}, (∀ c ∈ W, pyws c = true) → p.isPrefixOf (T ++ W) = true →
      p.isPrefixOf T = true := by
  induction p with
  | nil => intro T W _ _; simp [List.isPrefixOf]
  | cons c cs ih =>
    intro T W hW h
    cases T with
    | nil =>
      cases W with
      | nil => simp [List.isPrefixOf] at h
      | cons w ws =>
        have hcw : c = w := isPrefixOf_cons_head (by simpa using h)
        have h1 : pyws c = false := hp c (by simp)
        have h2 : pyws w = true := hW w (by simp)
        rw [hcw, h2] at h1
        cases h1
    | cons d ds =>
      simp only [List.cons_append, List.isPrefixOf, Bool.and_eq_true] at h ⊢
      exact ⟨h.1, ih (fun x hx => hp x (by simp [hx])) hW h.2⟩

theorem rstrip_decomp (x : List Char) :
    ∃ W, x = (x.reverse.dropWhile pyws).reverse ++ W ∧ ∀ c ∈ W, pyws c = true := by
  refine ⟨(x.reverse.takeWhile pyws).reverse, ?_, ?_⟩
  · conv_lhs => rw [← List.reverse_reverse x,
      ← List.takeWhile_append_dropWhile pyws x.reverse, List.reverse_append]
  · intro c hc
    rw [List.mem_reverse] at hc
    exact List.mem_takeWhile_imp hc

theorem isPrefixOf_pystrip {p : List Char} (hp : ∀ c ∈ p, pyws c = false) {l : String}
    (h : p.isPrefixOf l.data = true) : p.isPrefixOf (pystrip l).data = true := by
  cases p with
  | nil => simp [List.isPrefixOf]
  | cons c cs =>
    have hdw : l.data.dropWhile pyws = l.data := by
      cases hld : l.data with
      | nil => simp
      | cons a t =>
        have hca : c = a := isPrefixOf_cons_head (hld ▸ h)
        have : pyws a = false := hca ▸ hp c (by simp)
        simp [List.dropWhile_cons, this]
    obtain ⟨W, hx, hW⟩ := rstrip_decomp l.data
    have hres : (pystrip l).data = (l.data.reverse.dropWhile pyws).reverse := by
      show ((l.data.dropWhile pyws).reverse.dropWhile pyws).reverse = _
      rw [hdw]
    rw [hres]
    exact isPrefixOf_append_of_ws hp hW (by rw [← hx]; exact h)

theorem pystartswith_self_append (k v : String) : pystartswith (k ++ v) k = true := by
  unfold pystartswith
  rw [String.data_append]
  exact isPrefixOf_self_append _ _

theorem pystartswith_mono {s p q : String} (hpq : q.data.isPrefixOf p.data = true)
    (h : pystartswith s p = true) : pystartswith s q = true :=
  isPrefixOf_trans hpq h

theorem pystartswith_pystrip {s p : String} (hp : ∀ c ∈ p.data, pyws c = false)
    (h : pystartswith s p = true) : pystartswith (pystrip s) p = true :=
  isPrefixOf_pystrip hp h

/-! ### Dict lemmas -/

theorem dictGet_dictInsert_self (d : List (String × String)) (k v : String) :
    dictGet (dictInsert d k v) k = some v := by
  induction d with
  | nil => simp [dictInsert, dictGet]
  | cons kv rest ih =>
    by_cases h : kv.1 == k
    · simp [dictInsert, h, dictGet]
    · simp only [dictInsert, h, Bool.false_eq_true, if_false]
      simpa [dictGet, List.find?_cons, h] using ih

theorem dictGet_dictInsert_of_ne (d : List (String × String)) (k v k' : String)
    (h : k' ≠ k) : dictGet (dictInsert d k v) k' = dictGet d k' := by
  have hkk : (k == k') = false := beq_eq_false_iff_ne.2 (Ne.symm h)
  induction d with
  | nil => simp [dictInsert, dictGet, List.find?, hkk]
  | cons kv rest ih =>
    by_cases hk : kv.1 == k
    · have h1 : kv.1 = k := by simpa using hk
      have h2 : (kv.1 == k') = false := by rw [h1]; exact hkk
      simp [dictInsert, hk, dictGet, List.find?, hkk, h2]
    · simp only [dictInsert, hk, Bool.false_eq_true, if_false]
      by_cases hkk' : kv.1 == k'
      · simp [dictGet, List.find?, hkk']
      · simpa [dictGet, List.find?, hkk'] using ih

theorem mem_dictInsert {d : List (String × String)} {k v : String} :
    ∀ kv ∈ dictInsert d k v, kv = (k, v) ∨ kv ∈ d := by
  induction d with
  | nil =>
    intro kv hkv
    simp only [dictInsert, List.mem_singleton] at hkv
    exact Or.inl hkv
  | cons a rest ih =>
    intro kv hkv
    by_cases h : a.1 == k
    · simp only [dictInsert, h, if_true, List.mem_cons] at hkv
      rcases hkv with h1 | h1
      · exact Or.inl h1
      · exact Or.inr (List.mem_cons_of_mem a h1)
    · simp only [dictInsert, h, Bool.false_eq_true, if_false, List.mem_cons] at hkv
      rcases hkv with h1 | h1
      · exact Or.inr (by rw [h1]; exact List.mem_cons_self a rest)
      · rcases ih kv h1 with h2 | h2
        · exact Or.inl h2
        · exact Or.inr (List.mem_cons_of_mem a h2)

theorem fst_mem_dictInsert {d : List (String × String)} {k v : String} :
    ∀ x ∈ (dictInsert d k v).map Prod.fst, x = k ∨ x ∈ d.map Prod.fst := by
  intro x hx
  rcases List.mem_map.1 hx with ⟨kv, hkv, hfst⟩
  rcases mem_dictInsert kv hkv with h | h
  · left; rw [← hfst, h]
  · right; exact List.mem_map.2 ⟨kv, h, hfst⟩

theorem keysNodup_dictInsert {d : List (String × String)} (k v : String)
    (h : (d.map Prod.fst).Nodup) : ((dictInsert d k v).map Prod.fst).Nodup := by
  induction d with
  | nil => simp [dictInsert]
  | cons a rest ih =>
    rw [List.map_cons, List.nodup_cons] at h
    by_cases hk : a.1 == k
    · have ha : a.1 = k := by simpa using hk
      simpa [dictInsert, hk, ← ha] using h
    · simp only [dictInsert, hk, Bool.false_eq_true, if_false, List.map_cons, List.nodup_cons]
      refine ⟨?_, ih h.2⟩
      intro hmem
      rcases fst_mem_dictInsert a.1 hmem with h1 | h1
      · exact absurd (by simpa using h1) (by simpa using hk)
      · exact h.1 h1

theorem dictGet_mem {d : List (String × String)} {k v : String}
    (h : dictGet d k = some v) : (k, v) ∈ d := by
  unfold dictGet at h
  rcases hf : d.find? (fun kv => kv.1 == k) with _ | kv
  · rw [hf] at h; cases h
  · rw [hf] at h
    have h1 : kv.2 = v := by simpa using h
    have h2 : kv ∈ d := List.mem_of_find?_eq_some hf
    have h3 : kv.1 = k := by simpa using List.find?_some hf
    have : kv = (k, v) := Prod.ext h3 h1
    rwa [this] at h2

theorem countP_key_eq_one {d : List (String × String)} {k v : String}
    (hnd : (d.map Prod.fst).Nodup) (hm : (k, v) ∈ d) :
    d.countP (fun kv => kv.1 == k) = 1 := by
  induction d with
  | nil => cases hm
  | cons a rest ih =>
    rw [List.map_cons, List.nodup_cons] at hnd
    rcases List.mem_cons.1 hm with h | h
    · have ha : a.1 = k := by rw [← h]
      have hz : rest.countP (fun kv => kv.1 == k) = 0 := by
        rw [List.countP_eq_zero]
        intro kv hkv hbeq
        have hk1 : kv.1 = k := by simpa using hbeq
        apply hnd.1
        rw [ha, ← hk1]
        exact List.mem_map.2 ⟨kv, hkv, rfl⟩
      simp [List.countP_cons, ha, hz]
    · have ha : (a.1 == k) = false := by
        refine beq_eq_false_iff_ne.2 (fun hak => hnd.1 ?_)
        rw [hak]
        exact List.mem_map.2 ⟨(k, v), h, rfl⟩
      simp [List.countP_cons, ha, ih hnd.2 h]

theorem scan_nil (keys : List (String × String)) (env : List String) :
    scan [] keys env = (keys, env) := by
  simp [scan]

theorem scan_cons_openai (l : String) (rest : List String) (keys : List (String × String))
    (env : List String) (h1 : pystartswith (pystrip l) "OPENAI_API_KEY=" = true) :
    scan (l :: rest) keys env =
      scan (absorb (afterEq (pystrip l)) rest).2
        (dictInsert keys "OPENAI_API_KEY" (absorb (afterEq (pystrip l)) rest).1) env := by
  simp [scan, h1]

theorem scan_cons_mistral (l : String) (rest : List String) (keys : List (String × String))
    (env : List String) (h1 : ¬pystartswith (pystrip l) "OPENAI_API_KEY=" = true)
    (h2 : pystartswith (pystrip l) "MISTRAL_API_KEY=" = true) :
    scan (l :: rest) keys env = scan rest (dictInsert keys "MISTRAL_API_KEY" (afterEq (pystrip l))) env := by
  simp [scan, h1, h2]

theorem scan_cons_cohere (l : String) (rest : List String) (keys : List (String × String))
    (env : List String) (h1 : ¬pystartswith (pystrip l) "OPENAI_API_KEY=" = true)
    (h2 : ¬pystartswith (pystrip l) "MISTRAL_API_KEY=" = true)
    (h3 : pystartswith (pystrip l) "COHERE_API_KEY=" = true) :
    scan (l :: rest) keys env = scan rest (dictInsert keys "COHERE_API_KEY" (afterEq (pystrip l))) env := by
  simp [scan, h1, h2, h3]

theorem scan_cons_zep (l : String) (rest : List String) (keys : List (String × String))
    (env : List String) (h1 : ¬pystartswith (pystrip l) "OPENAI_API_KEY=" = true)
    (h2 : ¬pystartswith (pystrip l) "MISTRAL_API_KEY=" = true)
    (h3 : ¬pystartswith (pystrip l) "COHERE_API_KEY=" = true)
    (h4 : pystartswith (pystrip l) "ZEP_API_KEY=" = true) :
    scan (l :: rest) keys env = scan rest (dictInsert keys "ZEP_API_KEY" (afterEq (pystrip l))) env := by
  simp [scan, h1, h2, h3, h4]

theorem scan_cons_retain (l : String) (rest : List String) (keys : List (String × String))
    (env : List String) (h1 : ¬pystartswith (pystrip l) "OPENAI_API_KEY=" = true)
    (h2 : ¬pystartswith (pystrip l) "MISTRAL_API_KEY=" = true)
    (h3 : ¬pystartswith (pystrip l) "COHERE_API_KEY=" = true)
    (h4 : ¬pystartswith (pystrip l) "ZEP_API_KEY=" = true)
    (h5 : (!(pystartswith (pystrip l) "OPENAI_API_KEY" || pystartswith (pystrip l) "MISTRAL_API_KEY"
        || pystartswith (pystrip l) "COHERE_API_KEY")) = true) :
    scan (l :: rest) keys env = scan rest keys (env ++ [l]) := by
  simp [scan, h1, h2, h3, h4, h5]

theorem scan_cons_drop (l : String) (rest : List String) (keys : List (String × String))
    (env : List String) (h1 : ¬pystartswith (pystrip l) "OPENAI_API_KEY=" = true)
    (h2 : ¬pystartswith (pystrip l) "MISTRAL_API_KEY=" = true)
    (h3 : ¬pystartswith (pystrip l) "COHERE_API_KEY=" = true)
    (h4 : ¬pystartswith (pystrip l) "ZEP_API_KEY=" = true)
    (h5 : ¬(!(pystartswith (pystrip l) "OPENAI_API_KEY" || pystartswith (pystrip l) "MISTRAL_API_KEY"
        || pystartswith (pystrip l) "COHERE_API_KEY")) = true) :
    scan (l :: rest) keys env = scan rest keys env := by
  simp [scan, h1, h2, h3, h4, h5]

theorem scan_retained_inv (ls : List String) (keys : List (String × String)) (env : List String) :
    (∀ e ∈ env, retOk e = true) → ∀ r ∈ (scan ls keys env).2, retOk r = true := by
  induction ls, keys, env using scan.induct with
  | case1 keys env => intro henv; simpa [scan_nil] using henv
  | case2 l rest keys env s h1 ih =>
    intro henv
    rw [scan_cons_openai l rest keys env h1]
    exact ih henv
  | case3 l rest keys env s h1 h2 ih =>
    intro henv
    rw [scan_cons_mistral l rest keys env h1 h2]
    exact ih henv
  | case4 l rest keys env s h1 h2 h3 ih =>
    intro henv
    rw [scan_cons_cohere l rest keys env h1 h2 h3]
    exact ih henv
  | case5 l rest keys env s h1 h2 h3 h4 ih =>
    intro henv
    rw [scan_cons_zep l rest keys env h1 h2 h3 h4]
    exact ih henv
  | case6 l rest keys env s h1 h2 h3 h4 h5 ih =>
    intro henv
    rw [scan_cons_retain l rest keys env h1 h2 h3 h4 h5]
    refine ih ?_
    intro e he
    rcases List.mem_append.1 he with h | h
    · exact henv e h
    · have hel : e = l := by simpa using h
      subst hel
      have h5' : (pystartswith s "OPENAI_API_KEY" || pystartswith s "MISTRAL_API_KEY"
          || pystartswith s "COHERE_API_KEY") = false := by
        simpa using h5
      have hA : pystartswith s "OPENAI_API_KEY" = false := by
        cases hx : pystartswith s "OPENAI_API_KEY"
        · rfl
        · rw [hx] at h5'; simp at h5'
      have hB : pystartswith s "MISTRAL_API_KEY" = false := by
        cases hx : pystartswith s "MISTRAL_API_KEY"
        · rfl
        · rw [hx] at h5'; simp at h5'
      have hC : pystartswith s "COHERE_API_KEY" = false := by
        cases hx : pystartswith s "COHERE_API_KEY"
        · rfl
        · rw [hx] at h5'; simp at h5'
      have hD : pystartswith s "ZEP_API_KEY=" = false := by simpa using h4
      show (!pystartswith s "OPENAI_API_KEY" && !pystartswith s "MISTRAL_API_KEY"
        && !pystartswith s "COHERE_API_KEY" && !pystartswith s "ZEP_API_KEY=") = true
      simp [hA, hB, hC, hD]
  | case7 l rest keys env s h1 h2 h3 h4 h5 ih =>
    intro henv
    rw [scan_cons_drop l rest keys env h1 h2 h3 h4 h5]
    exact ih henv

theorem scan_keys_sub (ls : List String) (keys : List (String × String)) (env : List String) :
    (∀ kv ∈ keys, keyOk kv.1 = true) → ∀ kv ∈ (scan ls keys env).1, keyOk kv.1 = true := by
  induction ls, keys, env using scan.induct with
  | case1 keys env => intro h; simpa [scan_nil] using h
  | case2 l rest keys env s h1 ih =>
    intro h
    rw [scan_cons_openai l rest keys env h1]
    refine ih ?_
    intro kv hkv
    rcases mem_dictInsert kv hkv with he | he
    · rw [he]; exact (by decide : keyOk "OPENAI_API_KEY" = true)
    · exact h kv he
  | case3 l rest keys env s h1 h2 ih =>
    intro h
    rw [scan_cons_mistral l rest keys env h1 h2]
    refine ih ?_
    intro kv hkv
    rcases mem_dictInsert kv hkv with he | he
    · rw [he]; exact (by decide : keyOk "MISTRAL_API_KEY" = true)
    · exact h kv he
  | case4 l rest keys env s h1 h2 h3 ih =>
    intro h
    rw [scan_cons_cohere l rest keys env h1 h2 h3]
    refine ih ?_
    intro kv hkv
    rcases mem_dictInsert kv hkv with he | he
    · rw [he]; exact (by decide : keyOk "COHERE_API_KEY" = true)
    · exact h kv he
  | case5 l rest keys env s h1 h2 h3 h4 ih =>
    intro h
    rw [scan_cons_zep l rest keys env h1 h2 h3 h4]
    refine ih ?_
    intro kv hkv
    rcases mem_dictInsert kv hkv with he | he
    · rw [he]; exact (by decide : keyOk "ZEP_API_KEY" = true)
    · exact h kv he
  | case6 l rest keys env s h1 h2 h3 h4 h5 ih =>
    intro h
    rw [scan_cons_retain l rest keys env h1 h2 h3 h4 h5]
    exact ih h
  | case7 l rest keys env s h1 h2 h3 h4 h5 ih =>
    intro h
    rw [scan_cons_drop l rest keys env h1 h2 h3 h4 h5]
    exact ih h

theorem scan_keys_nodup (ls : List String) (keys : List (String × String)) (env : List String) :
    (keys.map Prod.fst).Nodup → ((scan ls keys env).1.map Prod.fst).Nodup := by
  induction ls, keys, env using scan.induct with
  | case1 keys env => intro h; simpa [scan_nil] using h
  | case2 l rest keys env s h1 ih =>
    intro h
    rw [scan_cons_openai l rest keys env h1]
    exact ih (keysNodup_dictInsert _ _ h)
  | case3 l rest keys env s h1 h2 ih =>
    intro h
    rw [scan_cons_mistral l rest keys env h1 h2]
    exact ih (keysNodup_dictInsert _ _ h)
  | case4 l rest keys env s h1 h2 h3 ih =>
    intro h
    rw [scan_cons_cohere l rest keys env h1 h2 h3]
    exact ih (keysNodup_dictInsert _ _ h)
  | case5 l rest keys env s h1 h2 h3 h4 ih =>
    intro h
    rw [scan_cons_zep l rest keys env h1 h2 h3 h4]
    exact ih (keysNodup_dictInsert _ _ h)
  | case6 l rest keys env s h1 h2 h3 h4 h5 ih =>
    intro h
    rw [scan_cons_retain l rest keys env h1 h2 h3 h4 h5]
    exact ih h
  | case7 l rest keys env s h1 h2 h3 h4 h5 ih =>
    intro h
    rw [scan_cons_drop l rest keys env h1 h2 h3 h4 h5]
    exact ih h

theorem isPrefixOf_comparable {t p q : List Char} (h1 : p.isPrefixOf t = true)
    (h2 : q.isPrefixOf t = true) : p.isPrefixOf q = true ∨ q.isPrefixOf p = true := by
  induction t generalizing p q with
  | nil =>
    cases p with
    | nil => left; simp [List.isPrefixOf]
    | cons c cs => simp [List.isPrefixOf] at h1
  | cons a as ih =>
    cases p with
    | nil => left; simp [List.isPrefixOf]
    | cons c cs =>
      cases q with
      | nil => right; simp [List.isPrefixOf]
      | cons d ds =>
        simp only [List.isPrefixOf, Bool.and_eq_true, beq_iff_eq] at h1 h2 ⊢
        rcases ih h1.2 h2.2 with h | h
        · left; exact ⟨h1.1.trans h2.1.symm, h⟩
        · right; exact ⟨h2.1.trans h1.1.symm, h⟩

theorem pystartswith_incomp {t P Q : String} (hne : P.data.isPrefixOf Q.data = false)
    (hne' : Q.data.isPrefixOf P.data = false)
    (h1 : pystartswith t P = true) (h2 : pystartswith t Q = true) : False := by
  rcases isPrefixOf_comparable h1 h2 with h | h
  · rw [hne] at h; cases h
  · rw [hne'] at h; cases h

theorem absorb_stop (acc : String) (post : List String)
    (hp : ∀ l ∈ post.take 1, stop3 (pystrip l) = true) :
    absorb acc post = (acc, post) := by
  cases post with
  | nil => simp [absorb]
  | cons p ps => simp [absorb, hp p (by simp)]

theorem absorb_app (acc : String) (conts post : List String)
    (hc : ∀ l ∈ conts, stop3 (pystrip l) = false)
    (hp : ∀ l ∈ post.take 1, stop3 (pystrip l) = true) :
    absorb acc (conts ++ post) = (acc ++ joinStrip conts, post) := by
  induction conts generalizing acc with
  | nil =>
    rw [List.nil_append, absorb_stop acc post hp]
    simp [joinStrip]
  | cons c cs ih =>
    have hc0 : stop3 (pystrip c) = false := hc c (by simp)
    rw [List.cons_append]
    simp only [absorb, hc0, Bool.false_eq_true, if_false]
    rw [ih (acc ++ pystrip c) (fun x hx => hc x (by simp [hx]))]
    simp [joinStrip, String.append_assoc]

theorem not_openai_eq_line {l : String}
    (hO : pystartswith (pystrip l) "OPENAI_API_KEY" = false) :
    ¬pystartswith (pystrip l) "OPENAI_API_KEY=" = true := by
  intro hx
  have h := @pystartswith_mono (pystrip l) "OPENAI_API_KEY=" "OPENAI_API_KEY" (by decide) hx
  rw [h] at hO
  cases hO

theorem scan_append (pre rest : List String) (keys : List (String × String)) (env : List String)
    (h : ∀ l ∈ pre, pystartswith (pystrip l) "OPENAI_API_KEY" = false) :
    scan (pre ++ rest) keys env = scan rest (scan pre keys env).1 (scan pre keys env).2 := by
  induction pre generalizing keys env with
  | nil => simp [scan_nil]
  | cons l pre' ih =>
    have hO : pystartswith (pystrip l) "OPENAI_API_KEY" = false := h l (by simp)
    have h1 : ¬pystartswith (pystrip l) "OPENAI_API_KEY=" = true := not_openai_eq_line hO
    have htail : ∀ x ∈ pre', pystartswith (pystrip x) "OPENAI_API_KEY" = false :=
      fun x hx => h x (by simp [hx])
    rw [List.cons_append]
    by_cases h2 : pystartswith (pystrip l) "MISTRAL_API_KEY=" = true
    · rw [scan_cons_mistral l (pre' ++ rest) keys env h1 h2,
        scan_cons_mistral l pre' keys env h1 h2]
      exact ih _ _ htail
    · by_cases h3 : pystartswith (pystrip l) "COHERE_API_KEY=" = true
      · rw [scan_cons_cohere l (pre' ++ rest) keys env h1 h2 h3,
          scan_cons_cohere l pre' keys env h1 h2 h3]
        exact ih _ _ htail
      · by_cases h4 : pystartswith (pystrip l) "ZEP_API_KEY=" = true
        · rw [scan_cons_zep l (pre' ++ rest) keys env h1 h2 h3 h4,
            scan_cons_zep l pre' keys env h1 h2 h3 h4]
          exact ih _ _ htail
        · by_cases h5 : (!(pystartswith (pystrip l) "OPENAI_API_KEY"
              || pystartswith (pystrip l) "MISTRAL_API_KEY"
              || pystartswith (pystrip l) "COHERE_API_KEY")) = true
          · rw [scan_cons_retain l (pre' ++ rest) keys env h1 h2 h3 h4 h5,
              scan_cons_retain l pre' keys env h1 h2 h3 h4 h5]
            exact ih _ _ htail
          · rw [scan_cons_drop l (pre' ++ rest) keys env h1 h2 h3 h4 h5,
              scan_cons_drop l pre' keys env h1 h2 h3 h4 h5]
            exact ih _ _ htail

theorem scan_keys_openai_stable (ls : List String) (keys : List (String × String)) (env : List String)
    (h : ∀ l ∈ ls, pystartswith (pystrip l) "OPENAI_API_KEY" = false) :
    dictGet (scan ls keys env).1 "OPENAI_API_KEY" = dictGet keys "OPENAI_API_KEY" := by
  induction ls generalizing keys env with
  | nil => simp [scan_nil]
  | cons l rest ih =>
    have hO : pystartswith (pystrip l) "OPENAI_API_KEY" = false := h l (by simp)
    have h1 : ¬pystartswith (pystrip l) "OPENAI_API_KEY=" = true := not_openai_eq_line hO
    have htail : ∀ x ∈ rest, pystartswith (pystrip x) "OPENAI_API_KEY" = false :=
      fun x hx => h x (by simp [hx])
    by_cases h2 : pystartswith (pystrip l) "MISTRAL_API_KEY=" = true
    · rw [scan_cons_mistral l rest keys env h1 h2, ih _ _ htail]
      exact dictGet_dictInsert_of_ne _ _ _ _ (by decide)
    · by_cases h3 : pystartswith (pystrip l) "COHERE_API_KEY=" = true
      · rw [scan_cons_cohere l rest keys env h1 h2 h3, ih _ _ htail]
        exact dictGet_dictInsert_of_ne _ _ _ _ (by decide)
      · by_cases h4 : pystartswith (pystrip l) "ZEP_API_KEY=" = true
        · rw [scan_cons_zep l rest keys env h1 h2 h3 h4, ih _ _ htail]
          exact dictGet_dictInsert_of_ne _ _ _ _ (by decide)
        · by_cases h5 : (!(pystartswith (pystrip l) "OPENAI_API_KEY"
              || pystartswith (pystrip l) "MISTRAL_API_KEY"
              || pystartswith (pystrip l) "COHERE_API_KEY")) = true
          · rw [scan_cons_retain l rest keys env h1 h2 h3 h4 h5, ih _ _ htail]
          · rw [scan_cons_drop l rest keys env h1 h2 h3 h4 h5, ih _ _ htail]

theorem value_unique_of_keysNodup {d : List (String × String)} {k a b : String}
    (hnd : (d.map Prod.fst).Nodup) (h1 : (k, a) ∈ d) (h2 : (k, b) ∈ d) : a = b := by
  induction d with
  | nil => cases h1
  | cons x rest ih =>
    rw [List.map_cons, List.nodup_cons] at hnd
    rcases List.mem_cons.1 h1 with ha | ha <;> rcases List.mem_cons.1 h2 with hb | hb
    · exact congrArg Prod.snd (ha.trans hb.symm)
    · refine absurd ?_ hnd.1
      rw [← ha]
      exact List.mem_map.2 ⟨(k, b), hb, rfl⟩
    · refine absurd ?_ hnd.1
      rw [← hb]
      exact List.mem_map.2 ⟨(k, a), ha, rfl⟩
    · exact ih hnd.2 ha hb

/-! ### Claim theorems -/

/-- C9: if the environment file does not exist, `fix_env_file` performs no file
reads or writes (the effect trace is empty and the file-system state is
unchanged) and returns the empty mapping. -/
theorem c9_missing_env_noop : fix_env_file none = ([], none, []) := rfl

/-- C7: on an empty credential list `import_credentials` returns the failure
value with an empty effect trace (no external copy or import call, and not
even the temp-file write), and any run whose effect trace is non-empty was
given a non-empty credential list. -/
theorem c7_empty_credentials (run : List String → Int) :
    import_credentials run [] = (false, []) ∧
      ∀ creds : List Credential, (import_credentials run creds).2 ≠ [] → creds ≠ [] := by
  refine ⟨rfl, ?_⟩
  intro creds h hc
  subst hc
  exact h rfl

/-- Witness for C7 at a concrete run function and a concrete one-element
credential list. -/
theorem c7_witness :
    import_credentials (fun _ => 0) [] = (false, []) ∧
      ([{ id := "a", name := "n", type_ := "t", data := [] }] : List Credential) ≠ [] := by
  refine ⟨(c7_empty_credentials (fun _ => 0)).1, ?_⟩
  exact (c7_empty_credentials (fun _ => 0)).2
    [{ id := "a", name := "n", type_ := "t", data := [] }] (by decide)

/-- C1 (code bug): with the Cohere key absent, `create_credentials_directly`
builds no `httpHeaderAuth` record, yet the remap table built from its
`cred_ids` dict maps the legacy identifier `SaJzpmSGdmOFSPDn` to the freshly
generated *Cohere* identifier `"ide"`, not to the OpenAI identifier `"ida"`:
the `cred_ids.get("cohere", cred_ids["openai"])` fallback is dead because
`cred_ids` always contains `"cohere"`.  With the key present (`"ck"`), the
Cohere record's auth value is `"Bearer ck"` as the claim states. -/
theorem c1_cohere_fallback_dead :
    ((create_credentials_directly [("OPENAI_API_KEY", "sk-test")]
        ["SERVICE_ROLE_KEY=s", "POSTGRES_PASSWORD=p"] "ida" "idb" "idc" "idd" "ide").1.all
      (fun cr => cr.type_ != "httpHeaderAuth")) = true
    ∧ mkIdMap (create_credentials_directly [("OPENAI_API_KEY", "sk-test")]
        ["SERVICE_ROLE_KEY=s", "POSTGRES_PASSWORD=p"] "ida" "idb" "idc" "idd" "ide").2
      = some [("MM0xMOJkVoJoWOLP", "ida"), ("rmhBwssORDiWOBKN", "idb"),
              ("wwbxqbDc4H2RPQ1Y", "idc"), ("7aOzWLaZcz9dgeSv", "idd"),
              ("SaJzpmSGdmOFSPDn", "ide")]
    ∧ ("ide" : String) ≠ "ida"
    ∧ ((create_credentials_directly [("OPENAI_API_KEY", "sk-test"), ("COHERE_API_KEY", "ck")]
        ["SERVICE_ROLE_KEY=s", "POSTGRES_PASSWORD=p"] "ida" "idb" "idc" "idd" "ide").1.any
      (fun cr => cr.type_ == "httpHeaderAuth"
        && decide (cr.data = [("name", JVal.s "Authorization"),
            ("value", JVal.s "Bearer ck")]))) = true := by
  refine ⟨by decide, by decide, by decide, by decide⟩

/-- C2 counterexample: on the file `["ZEP_API_KEY=foo"]` the returned mapping
contains the key `ZEP_API_KEY`, which is none of the three key names the claim
allows. -/
theorem c2_counterexample :
    ("ZEP_API_KEY", "foo") ∈ (fix_env_pure ["ZEP_API_KEY=foo"]).1 ∧
      ("ZEP_API_KEY" : String) ∉
        (["OPENAI_API_KEY", "MISTRAL_API_KEY", "COHERE_API_KEY"] : List String) := by
  constructor
  · have h : fix_env_pure ["ZEP_API_KEY=foo"] = ([("ZEP_API_KEY", "foo")], []) := by
      simp +decide [fix_env_pure, scan, absorb]
    rw [h]
    simp
  · decide

/-- C2 (amended): every key of the mapping returned by the environment-repair
step is one of the four captured key names `OPENAI_API_KEY`,
`MISTRAL_API_KEY`, `COHERE_API_KEY`, `ZEP_API_KEY`. -/
theorem c2_amended (lines : List String) :
    ∀ kv ∈ (fix_env_pure lines).1, keyOk kv.1 = true := by
  have h := scan_keys_sub lines [] [] (fun kv h => absurd h (List.not_mem_nil kv))
  simpa [fix_env_pure] using h

/-- Witness for C2 (amended) at the concrete file `["ZEP_API_KEY=foo"]`. -/
theorem c2_witness : keyOk ("ZEP_API_KEY" : String) = true := by
  refine c2_amended ["ZEP_API_KEY=foo"] ("ZEP_API_KEY", "foo") ?_
  have h : fix_env_pure ["ZEP_API_KEY=foo"] = ([("ZEP_API_KEY", "foo")], []) := by
    simp +decide [fix_env_pure, scan, absorb]
  rw [h]
  simp

/-- C3 counterexample: a line starting with `ZEP_API_KEY` *is* absorbed into
the OpenAI value: on `["OPENAI_API_KEY=sk-a", "ZEP_API_KEY=z"]` the
reconstructed OpenAI value is `"sk-aZEP_API_KEY=z"` and no `ZEP_API_KEY`
entry is captured. -/
theorem c3_counterexample :
    (fix_env_pure ["OPENAI_API_KEY=sk-a", "ZEP_API_KEY=z"]).1
      = [("OPENAI_API_KEY", "sk-aZEP_API_KEY=z")] := by
  simp +decide [fix_env_pure, scan, absorb]

/-- C3 (amended): the absorption loop of `fix_env_file` splits the remaining
lines into a consumed part and a remainder: it absorbs the stripped form of
every line up to, and not including, the first line whose stripped form starts
with `MISTRAL_API_KEY`, `COHERE_API_KEY` or `#` (the `stop3` condition) — and
only those three prefixes stop it; lines starting with `ZEP_API_KEY`,
`SERVICE_ROLE_KEY` or `POSTGRES_PASSWORD` are absorbed like any others. -/
theorem c3_amended (acc : String) (ls : List String) :
    ∃ p q, ls = p ++ q ∧ absorb acc ls = (acc ++ joinStrip p, q)
      ∧ (∀ l ∈ p, stop3 (pystrip l) = false)
      ∧ (∀ l ∈ q.take 1, stop3 (pystrip l) = true) := by
  induction ls generalizing acc with
  | nil => exact ⟨[], [], rfl, by simp [absorb, joinStrip], by simp, by simp⟩
  | cons l rest ih =>
    by_cases h : stop3 (pystrip l) = true
    · refine ⟨[], l :: rest, rfl, by simp [absorb, h, joinStrip], by simp, ?_⟩
      intro x hx
      have hxl : x = l := by simpa using hx
      rw [hxl]
      exact h
    · obtain ⟨p, q, hpq, he, hp, hq⟩ := ih (acc ++ pystrip l)
      refine ⟨l :: p, q, by simp [hpq], ?_, ?_, hq⟩
      · simp only [absorb, h, Bool.false_eq_true, if_false, List.cons_append]
        rw [he]
        simp [joinStrip, String.append_assoc]
      · intro x hx
        rcases List.mem_cons.1 hx with h1 | h1
        · rw [h1]; simpa using h
        · exact hp x h1

/-- Witness for C3 (amended) at a concrete accumulator and line list
containing a `ZEP_API_KEY` line followed by a comment line. -/
theorem c3_witness :
    ∃ p q, (["ZEP_API_KEY=z", "# end"] : List String) = p ++ q
      ∧ absorb "sk-a" ["ZEP_API_KEY=z", "# end"] = ("sk-a" ++ joinStrip p, q)
      ∧ (∀ l ∈ p, stop3 (pystrip l) = false)
      ∧ (∀ l ∈ q.take 1, stop3 (pystrip l) = true) :=
  c3_amended "sk-a" ["ZEP_API_KEY=z", "# end"]

theorem keyOk_cases {k : String} (h : keyOk k = true) :
    k = "OPENAI_API_KEY" ∨ k = "MISTRAL_API_KEY" ∨ k = "COHERE_API_KEY" ∨ k = "ZEP_API_KEY" := by
  have h' := h
  simp only [keyOk, Bool.or_eq_true, beq_iff_eq] at h'
  tauto

theorem four_keys_eq_incomp {x y : String} (hx : keyOk x = true) (hy : keyOk y = true)
    (hne : x ≠ y) : (x ++ "=").data.isPrefixOf (y ++ "=").data = false := by
  rcases keyOk_cases hx with h | h | h | h <;> rcases keyOk_cases hy with g | g | g | g <;>
    subst h <;> subst g <;> first
      | exact absurd rfl hne
      | decide

theorem countP_retained_zero (ret : List String) (h : ∀ r ∈ ret, retOk r = true) :
    ret.countP (fun l => pystartswith l "OPENAI_API_KEY=") = 0 := by
  rw [List.countP_eq_zero]
  intro r hr hsw
  have h1 : pystartswith (pystrip r) "OPENAI_API_KEY=" = true :=
    pystartswith_pystrip (by decide) hsw
  have h2 : pystartswith (pystrip r) "OPENAI_API_KEY" = true :=
    @pystartswith_mono (pystrip r) "OPENAI_API_KEY=" "OPENAI_API_KEY" (by decide) h1
  have h3 := h r hr
  simp [retOk, h2] at h3

theorem countP_openai_line (keys : List (String × String))
    (hsub : ∀ kv ∈ keys, keyOk kv.1 = true)
    (hnd : (keys.map Prod.fst).Nodup)
    (V : String) (hget : dictGet keys "OPENAI_API_KEY" = some V) (hkeep : keepVal V = true) :
    ((keys.filter (fun kv => keepVal kv.2)).map (fun kv => kv.1 ++ "=" ++ kv.2)).countP
      (fun l => pystartswith l "OPENAI_API_KEY=") = 1 := by
  rw [List.countP_map]
  have hmemf : ("OPENAI_API_KEY", V) ∈ keys.filter (fun kv => keepVal kv.2) :=
    List.mem_filter.2 ⟨dictGet_mem hget, hkeep⟩
  have hndf : ((keys.filter (fun kv => keepVal kv.2)).map Prod.fst).Nodup := by
    refine List.Nodup.sublist ?_ hnd
    exact List.Sublist.map Prod.fst (List.filter_sublist keys)
  have hcong : ∀ kv ∈ keys.filter (fun kv => keepVal kv.2),
      (pystartswith (kv.1 ++ "=" ++ kv.2) "OPENAI_API_KEY=" = true ↔ (kv.1 == "OPENAI_API_KEY") = true) := by
    intro kv hkv
    have hk : keyOk kv.1 = true := hsub kv (List.mem_of_mem_filter hkv)
    constructor
    · intro hsw
      by_contra hbne
      have hne : kv.1 ≠ "OPENAI_API_KEY" := by simpa using hbne
      have hself : pystartswith (kv.1 ++ "=" ++ kv.2) (kv.1 ++ "=") = true :=
        pystartswith_self_append (kv.1 ++ "=") kv.2
      exact pystartswith_incomp
        (four_keys_eq_incomp (by decide) hk (Ne.symm hne))
        (four_keys_eq_incomp hk (by decide) hne)
        hsw hself
    · intro hbeq
      have hk1 : kv.1 = "OPENAI_API_KEY" := by simpa using hbeq
      rw [hk1]
      exact pystartswith_self_append ("OPENAI_API_KEY" ++ "=") kv.2
  calc (keys.filter (fun kv => keepVal kv.2)).countP
        ((fun l => pystartswith l "OPENAI_API_KEY=") ∘ (fun kv => kv.1 ++ "=" ++ kv.2))
      = (keys.filter (fun kv => keepVal kv.2)).countP (fun kv => kv.1 == "OPENAI_API_KEY") :=
        List.countP_congr (fun kv hkv => by simpa using hcong kv hkv)
    _ = 1 := countP_key_eq_one hndf hmemf

/-- C4 counterexample: on the two-line file `["OPENAI_API_KEY=xxx", "xxx"]`
the OpenAI value is split across `N = 2` physical lines and reconstructs to
the placeholder `"xxxxxx"`, and the rewritten file then contains *zero* lines
for `OPENAI_API_KEY`, not exactly one. -/
theorem c4_counterexample :
    (fix_env_pure ["OPENAI_API_KEY=xxx", "xxx"]).1 = [("OPENAI_API_KEY", "xxxxxx")] ∧
      (fix_env_output ["OPENAI_API_KEY=xxx", "xxx"]).countP
        (fun l => pystartswith l "OPENAI_API_KEY=") = 0 := by
  constructor
  · simp +decide [fix_env_pure, scan, absorb]
  · have h : fix_env_output ["OPENAI_API_KEY=xxx", "xxx"]
        = ["", "# SOTA RAG API Keys (Corrected)"] := by
      simp +decide [fix_env_output, fix_env_pure, env_output, scan, absorb, keepVal]
    rw [h]
    decide

/-- C4 (amended): for a file whose single OpenAI key line is followed by
continuation lines (none of which satisfies the absorption stop condition),
with no other line whose stripped form starts with `OPENAI_API_KEY`, and
*provided the reconstructed value is non-empty and not the placeholder*
`"xxxxxx"`, the rewritten file contains exactly one `OPENAI_API_KEY=` line,
whose value is the concatenation of the value fragment of the key line and
the stripped continuation fragments. -/
theorem c4_amended (pre conts post : List String) (ok : String) (V : String)
    (hok : pystartswith (pystrip ok) "OPENAI_API_KEY=" = true)
    (hpre : ∀ l ∈ pre, pystartswith (pystrip l) "OPENAI_API_KEY" = false)
    (hconts : ∀ l ∈ conts, stop3 (pystrip l) = false)
    (hpost1 : ∀ l ∈ post.take 1, stop3 (pystrip l) = true)
    (hpost : ∀ l ∈ post, pystartswith (pystrip l) "OPENAI_API_KEY" = false)
    (hV : V = afterEq (pystrip ok) ++ joinStrip conts)
    (hkeep : keepVal V = true) :
    (fix_env_output (pre ++ ok :: (conts ++ post))).countP
        (fun l => pystartswith l "OPENAI_API_KEY=") = 1
    ∧ ("OPENAI_API_KEY=" ++ V) ∈ fix_env_output (pre ++ ok :: (conts ++ post)) := by
  have hscan : scan (pre ++ ok :: (conts ++ post)) [] [] =
      scan post (dictInsert (scan pre [] []).1 "OPENAI_API_KEY" V)
        (scan pre [] []).2 := by
    rw [scan_append pre _ [] [] hpre,
      scan_cons_openai ok (conts ++ post) _ _ hok,
      absorb_app _ conts post hconts hpost1, ← hV]
  have hget : dictGet (scan (pre ++ ok :: (conts ++ post)) [] []).1 "OPENAI_API_KEY" = some V := by
    rw [hscan, scan_keys_openai_stable post _ _ hpost, dictGet_dictInsert_self]
  have hsub : ∀ kv ∈ (scan (pre ++ ok :: (conts ++ post)) [] []).1, keyOk kv.1 = true :=
    scan_keys_sub _ [] [] (fun kv h => absurd h (List.not_mem_nil kv))
  have hnd : ((scan (pre ++ ok :: (conts ++ post)) [] []).1.map Prod.fst).Nodup :=
    scan_keys_nodup _ [] [] (by simp)
  have hret : ∀ r ∈ (scan (pre ++ ok :: (conts ++ post)) [] []).2, retOk r = true :=
    scan_retained_inv _ [] [] (fun e he => absurd he (List.not_mem_nil e))
  have hout : fix_env_output (pre ++ ok :: (conts ++ post)) =
      (scan (pre ++ ok :: (conts ++ post)) [] []).2 ++ ["", "# SOTA RAG API Keys (Corrected)"]
        ++ ((scan (pre ++ ok :: (conts ++ post)) [] []).1.filter
            (fun kv => keepVal kv.2)).map (fun kv => kv.1 ++ "=" ++ kv.2) := rfl
  constructor
  · rw [hout, List.countP_append, List.countP_append, countP_retained_zero _ hret,
      countP_openai_line _ hsub hnd V hget hkeep,
      show (["", "# SOTA RAG API Keys (Corrected)"].countP
        (fun l => pystartswith l "OPENAI_API_KEY=")) = 0 from by decide]
  · rw [hout]
    refine List.mem_append.2 (Or.inr ?_)
    refine List.mem_map.2 ⟨("OPENAI_API_KEY", V), List.mem_filter.2 ⟨dictGet_mem hget, hkeep⟩, rfl⟩

/-- Witness for C4 (amended) at the spec's own example file
`OPENAI_API_KEY=sk-abc / def / MISTRAL_API_KEY=xyz`, together with the
concrete rewritten file, which contains the two repaired single lines in
order with no duplicate keys. -/
theorem c4_witness :
    ((fix_env_output ["OPENAI_API_KEY=sk-abc", "def", "MISTRAL_API_KEY=xyz"]).countP
        (fun l => pystartswith l "OPENAI_API_KEY=") = 1
      ∧ ("OPENAI_API_KEY=" ++ "sk-abcdef")
          ∈ fix_env_output ["OPENAI_API_KEY=sk-abc", "def", "MISTRAL_API_KEY=xyz"])
    ∧ fix_env_output ["OPENAI_API_KEY=sk-abc", "def", "MISTRAL_API_KEY=xyz"]
        = ["", "# SOTA RAG API Keys (Corrected)", "OPENAI_API_KEY=sk-abcdef",
           "MISTRAL_API_KEY=xyz"] := by
  constructor
  · exact c4_amended [] ["def"] ["MISTRAL_API_KEY=xyz"] "OPENAI_API_KEY=sk-abc" "sk-abcdef"
      (by decide) (by simp) (by decide) (by decide) (by decide) (by decide) (by decide)
  · simp +decide [fix_env_output, fix_env_pure, env_output, scan, absorb, keepVal]

/-- C6: a captured key whose final (reconstructed or captured) value is the
placeholder `"xxxxxx"` never appears as a `KEY=value` line in the rewritten
file: no output line starts with that key name followed by `=`. -/
theorem c6_placeholder_absent (lines : List String) (k v : String)
    (hkv : (k, v) ∈ (fix_env_pure lines).1) (hv : v = "xxxxxx") :
    ∀ l ∈ fix_env_output lines, pystartswith l (k ++ "=") = false := by
  subst hv
  have hsub : ∀ kv ∈ (scan lines [] []).1, keyOk kv.1 = true :=
    scan_keys_sub _ [] [] (fun kv h => absurd h (List.not_mem_nil kv))
  have hk : keyOk k = true := hsub (k, "xxxxxx") hkv
  have hnd : ((scan lines [] []).1.map Prod.fst).Nodup := scan_keys_nodup _ [] [] (by simp)
  have hret : ∀ r ∈ (scan lines [] []).2, retOk r = true :=
    scan_retained_inv _ [] [] (fun e he => absurd he (List.not_mem_nil e))
  intro l hl
  cases hsw : pystartswith l (k ++ "=") with
  | false => rfl
  | true =>
    exfalso
    have hl' : l ∈ (scan lines [] []).2 ++ ["", "# SOTA RAG API Keys (Corrected)"]
        ++ ((scan lines [] []).1.filter (fun kv => keepVal kv.2)).map
            (fun kv => kv.1 ++ "=" ++ kv.2) := hl
    rcases List.mem_append.1 hl' with h12 | h3
    · rcases List.mem_append.1 h12 with h1 | h2
      · have hro := hret l h1
        have hnws : ∀ c ∈ (k ++ "=").data, pyws c = false := by
          rcases keyOk_cases hk with h | h | h | h <;> rw [h] <;> decide
        have hs1 : pystartswith (pystrip l) (k ++ "=") = true := pystartswith_pystrip hnws hsw
        rcases keyOk_cases hk with h | h | h | h <;> subst h
        · have h2' : pystartswith (pystrip l) "OPENAI_API_KEY" = true :=
            @pystartswith_mono (pystrip l) ("OPENAI_API_KEY" ++ "=") "OPENAI_API_KEY"
              (by decide) hs1
          simp [retOk, h2'] at hro
        · have h2' : pystartswith (pystrip l) "MISTRAL_API_KEY" = true :=
            @pystartswith_mono (pystrip l) ("MISTRAL_API_KEY" ++ "=") "MISTRAL_API_KEY"
              (by decide) hs1
          simp [retOk, h2'] at hro
        · have h2' : pystartswith (pystrip l) "COHERE_API_KEY" = true :=
            @pystartswith_mono (pystrip l) ("COHERE_API_KEY" ++ "=") "COHERE_API_KEY"
              (by decide) hs1
          simp [retOk, h2'] at hro
        · have h2' : pystartswith (pystrip l) "ZEP_API_KEY=" = true := hs1
          simp [retOk, h2'] at hro
      · have he : l = "" ∨ l = "# SOTA RAG API Keys (Corrected)" := by simpa using h2
        rcases he with he | he <;> subst he <;>
          rcases keyOk_cases hk with h | h | h | h <;> subst h <;>
          exact absurd hsw (by decide)
    · rcases List.mem_map.1 h3 with ⟨kv, hkvf, hline⟩
      have hkvmem : kv ∈ (scan lines [] []).1 := List.mem_of_mem_filter hkvf
      have hkeep : keepVal kv.2 = true := (List.mem_filter.1 hkvf).2
      have hk2 : keyOk kv.1 = true := hsub kv hkvmem
      by_cases heq : kv.1 = k
      · have hkv2 : (k, kv.2) ∈ (scan lines [] []).1 := by
          rw [← heq]
          simpa using hkvmem
        have hveq : kv.2 = "xxxxxx" := value_unique_of_keysNodup hnd hkv2 hkv
        rw [hveq] at hkeep
        exact absurd hkeep (by decide)
      · have hself : pystartswith (kv.1 ++ "=" ++ kv.2) (kv.1 ++ "=") = true :=
          pystartswith_self_append (kv.1 ++ "=") kv.2
        rw [← hline] at hsw
        exact pystartswith_incomp (four_keys_eq_incomp hk hk2 (Ne.symm heq))
          (four_keys_eq_incomp hk2 hk heq) hsw hself

/-- Witness for C6 at the concrete file `["COHERE_API_KEY=xxxxxx"]` and the
comment line of the rewritten file. -/
theorem c6_witness :
    pystartswith "# SOTA RAG API Keys (Corrected)" ("COHERE_API_KEY" ++ "=") = false := by
  refine c6_placeholder_absent ["COHERE_API_KEY=xxxxxx"] "COHERE_API_KEY" "xxxxxx" ?_ rfl
    "# SOTA RAG API Keys (Corrected)" ?_
  · show ("COHERE_API_KEY", "xxxxxx") ∈ (fix_env_pure ["COHERE_API_KEY=xxxxxx"]).1
    have h : fix_env_pure ["COHERE_API_KEY=xxxxxx"] = ([("COHERE_API_KEY", "xxxxxx")], []) := by
      simp +decide [fix_env_pure, scan, absorb]
    rw [h]
    simp
  · have h : fix_env_output ["COHERE_API_KEY=xxxxxx"]
        = ["", "# SOTA RAG API Keys (Corrected)"] := by
      simp +decide [fix_env_output, fix_env_pure, env_output, scan, absorb, keepVal]
    rw [h]
    simp

/-- C10: a line whose stripped form starts with `MISTRAL_API_KEY` or
`COHERE_API_KEY` but not with the corresponding `KEY=` form is silently
dropped: it is not a line of the rewritten file, and it does not appear as any
entry of the returned mapping (no captured `KEY=value` entry renders a line
the stripped input line would start). -/
theorem c10_dropped_line (lines : List String) (l : String) (hl : l ∈ lines)
    (hbad : badMC (pystrip l) = true) :
    l ∉ fix_env_output lines
    ∧ ∀ kv ∈ (fix_env_pure lines).1, pystartswith (pystrip l) (kv.1 ++ "=") = false := by
  have hsub : ∀ kv ∈ (scan lines [] []).1, keyOk kv.1 = true :=
    scan_keys_sub _ [] [] (fun kv h => absurd h (List.not_mem_nil kv))
  have hret : ∀ r ∈ (scan lines [] []).2, retOk r = true :=
    scan_retained_inv _ [] [] (fun e he => absurd he (List.not_mem_nil e))
  have hbad' : (pystartswith (pystrip l) "MISTRAL_API_KEY" = true
        ∧ pystartswith (pystrip l) "MISTRAL_API_KEY=" = false)
      ∨ (pystartswith (pystrip l) "COHERE_API_KEY" = true
        ∧ pystartswith (pystrip l) "COHERE_API_KEY=" = false) := by
    have h := hbad
    simp only [badMC, Bool.or_eq_true, Bool.and_eq_true, Bool.not_eq_true'] at h
    exact h
  have hb : ∀ kv ∈ (scan lines [] []).1, pystartswith (pystrip l) (kv.1 ++ "=") = false := by
    intro kv hkv
    have hk := hsub kv hkv
    cases hsw : pystartswith (pystrip l) (kv.1 ++ "=") with
    | false => rfl
    | true =>
      exfalso
      rcases hbad' with ⟨hM, hMne⟩ | ⟨hC, hCne⟩
      · rcases keyOk_cases hk with h | h | h | h <;> rw [h] at hsw
        · exact pystartswith_incomp (by decide) (by decide) hsw hM
        · exact absurd (show pystartswith (pystrip l) "MISTRAL_API_KEY=" = true from hsw)
            (by simp [hMne])
        · exact pystartswith_incomp (by decide) (by decide) hsw hM
        · exact pystartswith_incomp (by decide) (by decide) hsw hM
      · rcases keyOk_cases hk with h | h | h | h <;> rw [h] at hsw
        · exact pystartswith_incomp (by decide) (by decide) hsw hC
        · exact pystartswith_incomp (by decide) (by decide) hsw hC
        · exact absurd (show pystartswith (pystrip l) "COHERE_API_KEY=" = true from hsw)
            (by simp [hCne])
        · exact pystartswith_incomp (by decide) (by decide) hsw hC
  refine ⟨?_, hb⟩
  intro hmem
  have hl2 : l ∈ (scan lines [] []).2 ++ ["", "# SOTA RAG API Keys (Corrected)"]
      ++ ((scan lines [] []).1.filter (fun kv => keepVal kv.2)).map
          (fun kv => kv.1 ++ "=" ++ kv.2) := hmem
  rcases List.mem_append.1 hl2 with h12 | h3
  · rcases List.mem_append.1 h12 with h1 | h2
    · have hro := hret l h1
      rcases hbad' with ⟨hM, _⟩ | ⟨hC, _⟩
      · simp [retOk, hM] at hro
      · simp [retOk, hC] at hro
    · have he : l = "" ∨ l = "# SOTA RAG API Keys (Corrected)" := by simpa using h2
      rcases he with he | he <;> subst he <;> exact absurd hbad (by decide)
  · rcases List.mem_map.1 h3 with ⟨kv, hkvf, hline⟩
    have hkvmem : kv ∈ (scan lines [] []).1 := List.mem_of_mem_filter hkvf
    have hswl : pystartswith l (kv.1 ++ "=") = true := by
      rw [← hline]
      exact pystartswith_self_append (kv.1 ++ "=") kv.2
    have hnws : ∀ c ∈ (kv.1 ++ "=").data, pyws c = false := by
      rcases keyOk_cases (hsub kv hkvmem) with h | h | h | h <;> rw [h] <;> decide
    have hs := pystartswith_pystrip hnws hswl
    have hfalse := hb kv hkvmem
    rw [hs] at hfalse
    cases hfalse

/-- Witness for C10 at the concrete file
`["MISTRAL_API_KEYS=v", "COHERE_API_KEY=c"]` and its first line, which starts
with `MISTRAL_API_KEY` but not `MISTRAL_API_KEY=`. -/
theorem c10_witness :
    ("MISTRAL_API_KEYS=v" : String) ∉ fix_env_output ["MISTRAL_API_KEYS=v", "COHERE_API_KEY=c"]
    ∧ pystartswith (pystrip "MISTRAL_API_KEYS=v") ("COHERE_API_KEY" ++ "=") = false := by
  have h := c10_dropped_line ["MISTRAL_API_KEYS=v", "COHERE_API_KEY=c"] "MISTRAL_API_KEYS=v"
    (by simp) (by decide)
  refine ⟨h.1, ?_⟩
  refine h.2 ("COHERE_API_KEY", "c") ?_
  show ("COHERE_API_KEY", "c") ∈ (fix_env_pure ["MISTRAL_API_KEYS=v", "COHERE_API_KEY=c"]).1
  have he : fix_env_pure ["MISTRAL_API_KEYS=v", "COHERE_API_KEY=c"]
      = ([("COHERE_API_KEY", "c")], []) := by
    simp +decide [fix_env_pure, scan, absorb]
  rw [he]
  simp

theorem dictGet_eq_none {d : List (String × String)} {k : String}
    (h : ∀ kv ∈ d, kv.1 ≠ k) : dictGet d k = none := by
  have hf : d.find? (fun kv => kv.1 == k) = none :=
    List.find?_eq_none.2 (fun kv hkv => by simp [h kv hkv])
  simp [dictGet, hf]

theorem update_creds_chart (im : List (String × String)) (cs : List (String × CredInfo)) :
    (update_creds im cs).2 = cs.countP (fun tc => (dictGet im (tc.2.id.getD "")).isSome)
    ∧ List.Forall₂ (fun tc tc' : String × CredInfo =>
        tc'.1 = tc.1 ∧ tc'.2.extra = tc.2.extra ∧
        tc'.2.id = (match dictGet im (tc.2.id.getD "") with
                    | some nid => some nid
                    | none => tc.2.id)) cs (update_creds im cs).1 := by
  induction cs with
  | nil => exact ⟨rfl, List.Forall₂.nil⟩
  | cons tc rest ih =>
    obtain ⟨t, c⟩ := tc
    have hcred : update_creds im ((t, c) :: rest)
        = ((t, (update_cred im c).1) :: (update_creds im rest).1,
           (update_cred im c).2 + (update_creds im rest).2) := rfl
    cases hid : dictGet im (c.id.getD "") with
    | none =>
      have hc : update_cred im c = (c, 0) := by simp [update_cred, hid]
      rw [hcred, hc]
      constructor
      · simp [List.countP_cons, hid, ih.1]
      · exact List.Forall₂.cons ⟨rfl, rfl, by simp [hid]⟩ ih.2
    | some nid =>
      have hc : update_cred im c = ({ c with id := some nid }, 1) := by simp [update_cred, hid]
      rw [hcred, hc]
      constructor
      · simp [List.countP_cons, hid, ih.1, Nat.add_comm]
      · exact List.Forall₂.cons ⟨rfl, rfl, by simp [hid]⟩ ih.2

theorem update_nodes_chart (im : List (String × String)) (ns : List Node) :
    (update_nodes im ns).2 = (ns.map (fun n => match n.credentials with
        | none => 0
        | some cs => cs.countP (fun tc => (dictGet im (tc.2.id.getD "")).isSome))).sum
    ∧ List.Forall₂ (fun n n' : Node =>
        n'.extra = n.extra ∧
        ((n.credentials = none ∧ n'.credentials = none)
          ∨ ∃ cs, n.credentials = some cs ∧ n'.credentials = some (update_creds im cs).1))
      ns (update_nodes im ns).1 := by
  induction ns with
  | nil => exact ⟨rfl, List.Forall₂.nil⟩
  | cons n rest ih =>
    have hn : update_nodes im (n :: rest)
        = ((update_node im n).1 :: (update_nodes im rest).1,
           (update_node im n).2 + (update_nodes im rest).2) := rfl
    cases hcred : n.credentials with
    | none =>
      have h1 : update_node im n = (n, 0) := by simp [update_node, hcred]
      rw [hn, h1]
      constructor
      · simp [hcred, ih.1]
      · exact List.Forall₂.cons ⟨rfl, Or.inl ⟨hcred, hcred⟩⟩ ih.2
    | some cs =>
      have h1 : update_node im n
          = ({ n with credentials := some (update_creds im cs).1 }, (update_creds im cs).2) := by
        simp [update_node, hcred]
      rw [hn, h1]
      constructor
      · rw [List.map_cons, List.sum_cons, ← ih.1, (update_creds_chart im cs).1]
        simp [hcred]
      · exact List.Forall₂.cons ⟨rfl, Or.inr ⟨cs, hcred, rfl⟩⟩ ih.2

/-- C5: patching a workflow with the remap table built from the (always
five-entry) `cred_ids` dict replaces exactly the credential ids equal to one
of the five legacy constants by the corresponding generated identifier, leaves
every other id and all other node content unchanged, and reports as update
count precisely the number of entries whose id matched a legacy identifier. -/
theorem c5_workflow_patch (a b c d e : String) (w : Workflow) (im : List (String × String))
    (him : mkIdMap (mk_cred_ids a b c d e) = some im) :
    (update_workflow im w).2 = specMatchedCount im w
    ∧ (update_workflow im w).1.extra = w.extra
    ∧ List.Forall₂ (fun n n' : Node =>
        n'.extra = n.extra ∧
        ((n.credentials = none ∧ n'.credentials = none)
          ∨ ∃ cs cs', n.credentials = some cs ∧ n'.credentials = some cs'
              ∧ List.Forall₂ (fun tc tc' : String × CredInfo =>
                  tc'.1 = tc.1 ∧ tc'.2.extra = tc.2.extra
                  ∧ (tc.2.id.getD "" = "MM0xMOJkVoJoWOLP" → tc'.2.id = some a)
                  ∧ (tc.2.id.getD "" = "rmhBwssORDiWOBKN" → tc'.2.id = some b)
                  ∧ (tc.2.id.getD "" = "wwbxqbDc4H2RPQ1Y" → tc'.2.id = some c)
                  ∧ (tc.2.id.getD "" = "7aOzWLaZcz9dgeSv" → tc'.2.id = some d)
                  ∧ (tc.2.id.getD "" = "SaJzpmSGdmOFSPDn" → tc'.2.id = some e)
                  ∧ (tc.2.id.getD "" ∉ (["MM0xMOJkVoJoWOLP", "rmhBwssORDiWOBKN",
                      "wwbxqbDc4H2RPQ1Y", "7aOzWLaZcz9dgeSv", "SaJzpmSGdmOFSPDn"] : List String)
                      → tc'.2.id = tc.2.id)) cs cs'))
      w.nodes (update_workflow im w).1.nodes := by
  have him' : im = [("MM0xMOJkVoJoWOLP", a), ("rmhBwssORDiWOBKN", b), ("wwbxqbDc4H2RPQ1Y", c),
      ("7aOzWLaZcz9dgeSv", d), ("SaJzpmSGdmOFSPDn", e)] := by
    have hrfl : mkIdMap (mk_cred_ids a b c d e)
        = some [("MM0xMOJkVoJoWOLP", a), ("rmhBwssORDiWOBKN", b), ("wwbxqbDc4H2RPQ1Y", c),
            ("7aOzWLaZcz9dgeSv", d), ("SaJzpmSGdmOFSPDn", e)] := rfl
    rw [hrfl] at him
    exact (Option.some.inj him).symm
  subst him'
  refine ⟨?_, rfl, ?_⟩
  · show (update_nodes [("MM0xMOJkVoJoWOLP", a), ("rmhBwssORDiWOBKN", b), ("wwbxqbDc4H2RPQ1Y", c),
        ("7aOzWLaZcz9dgeSv", d), ("SaJzpmSGdmOFSPDn", e)] w.nodes).2 = specMatchedCount [("MM0xMOJkVoJoWOLP", a), ("rmhBwssORDiWOBKN", b), ("wwbxqbDc4H2RPQ1Y", c),
        ("7aOzWLaZcz9dgeSv", d), ("SaJzpmSGdmOFSPDn", e)] w
    rw [(update_nodes_chart [("MM0xMOJkVoJoWOLP", a), ("rmhBwssORDiWOBKN", b), ("wwbxqbDc4H2RPQ1Y", c),
        ("7aOzWLaZcz9dgeSv", d), ("SaJzpmSGdmOFSPDn", e)] w.nodes).1]
    rfl
  · have hn := (update_nodes_chart [("MM0xMOJkVoJoWOLP", a), ("rmhBwssORDiWOBKN", b), ("wwbxqbDc4H2RPQ1Y", c),
        ("7aOzWLaZcz9dgeSv", d), ("SaJzpmSGdmOFSPDn", e)] w.nodes).2
    refine List.Forall₂.imp ?_ hn
    intro n n' hrel
    refine ⟨hrel.1, ?_⟩
    rcases hrel.2 with ⟨h1, h2⟩ | ⟨cs, h1, h2⟩
    · exact Or.inl ⟨h1, h2⟩
    · refine Or.inr ⟨cs, (update_creds [("MM0xMOJkVoJoWOLP", a), ("rmhBwssORDiWOBKN", b), ("wwbxqbDc4H2RPQ1Y", c),
        ("7aOzWLaZcz9dgeSv", d), ("SaJzpmSGdmOFSPDn", e)] cs).1, h1, h2, ?_⟩
      have hcc := (update_creds_chart [("MM0xMOJkVoJoWOLP", a), ("rmhBwssORDiWOBKN", b), ("wwbxqbDc4H2RPQ1Y", c),
        ("7aOzWLaZcz9dgeSv", d), ("SaJzpmSGdmOFSPDn", e)] cs).2
      refine List.Forall₂.imp ?_ hcc
      intro tc tc' hrc
      obtain ⟨e1, e2, e3⟩ := hrc
      refine ⟨e1, e2, ?_, ?_, ?_, ?_, ?_, ?_⟩
      · intro h
        rw [h] at e3
        simp +decide [dictGet, List.find?] at e3
        exact e3
      · intro h
        rw [h] at e3
        simp +decide [dictGet, List.find?] at e3
        exact e3
      · intro h
        rw [h] at e3
        simp +decide [dictGet, List.find?] at e3
        exact e3
      · intro h
        rw [h] at e3
        simp +decide [dictGet, List.find?] at e3
        exact e3
      · intro h
        rw [h] at e3
        simp +decide [dictGet, List.find?] at e3
        exact e3
      · intro hnotin
        have hnone : dictGet [("MM0xMOJkVoJoWOLP", a), ("rmhBwssORDiWOBKN", b),
            ("wwbxqbDc4H2RPQ1Y", c), ("7aOzWLaZcz9dgeSv", d), ("SaJzpmSGdmOFSPDn", e)]
            (tc.2.id.getD "") = none := by
          apply dictGet_eq_none
          intro kv hkv hkeq
          apply hnotin
          rw [← hkeq]
          rcases (by simpa using hkv :
              kv = ("MM0xMOJkVoJoWOLP", a) ∨ kv = ("rmhBwssORDiWOBKN", b)
              ∨ kv = ("wwbxqbDc4H2RPQ1Y", c) ∨ kv = ("7aOzWLaZcz9dgeSv", d)
              ∨ kv = ("SaJzpmSGdmOFSPDn", e)) with h | h | h | h | h <;> rw [h] <;> simp
        rw [hnone] at e3
        exact e3

/-- Witness for C5 at concrete identifiers and a concrete one-node workflow
document carrying a legacy OpenAI credential reference. -/
theorem c5_witness :
    (update_workflow [("MM0xMOJkVoJoWOLP", "na"), ("rmhBwssORDiWOBKN", "nb"),
        ("wwbxqbDc4H2RPQ1Y", "nc"), ("7aOzWLaZcz9dgeSv", "nd"), ("SaJzpmSGdmOFSPDn", "ne")]
      ⟨[⟨some [("openAiApi", ⟨some "MM0xMOJkVoJoWOLP", [("x", "y")]⟩)], [("name", "N")]⟩],
       [("meta", "m")]⟩).2
    = specMatchedCount [("MM0xMOJkVoJoWOLP", "na"), ("rmhBwssORDiWOBKN", "nb"),
        ("wwbxqbDc4H2RPQ1Y", "nc"), ("7aOzWLaZcz9dgeSv", "nd"), ("SaJzpmSGdmOFSPDn", "ne")]
      ⟨[⟨some [("openAiApi", ⟨some "MM0xMOJkVoJoWOLP", [("x", "y")]⟩)], [("name", "N")]⟩],
       [("meta", "m")]⟩ :=
  (c5_workflow_patch "na" "nb" "nc" "nd" "ne"
    ⟨[⟨some [("openAiApi", ⟨some "MM0xMOJkVoJoWOLP", [("x", "y")]⟩)], [("name", "N")]⟩],
     [("meta", "m")]⟩
    [("MM0xMOJkVoJoWOLP", "na"), ("rmhBwssORDiWOBKN", "nb"), ("wwbxqbDc4H2RPQ1Y", "nc"),
     ("7aOzWLaZcz9dgeSv", "nd"), ("SaJzpmSGdmOFSPDn", "ne")] rfl).1

theorem import_credentials_agree (run run' : List String → Int)
    (hcp : run' credCpCmd = run credCpCmd) (himp : run' credImportCmd = run credImportCmd)
    (creds : List Credential) :
    import_credentials run' creds = import_credentials run creds := by
  unfold import_credentials
  rw [hcp, himp]

theorem update_and_import_isSome (run : List String → Int) (p : String) (w : Workflow)
    (cred_ids : List (String × String)) (him : (mkIdMap cred_ids).isSome = true) :
    (update_and_import_workflow run p w cred_ids).isSome = true := by
  unfold update_and_import_workflow
  rcases hm : mkIdMap cred_ids with _ | m
  · rw [hm] at him
    exact absurd him (by simp)
  · dsimp only
    split <;> first
      | rfl
      | split <;> rfl

theorem run_workflows_total (run : List String → Int) (cred_ids : List (String × String))
    (him : (mkIdMap cred_ids).isSome = true) :
    ∀ wl : List (String × Option Workflow), ∃ n, run_workflows run cred_ids wl = some n := by
  intro wl
  induction wl with
  | nil => exact ⟨0, rfl⟩
  | cons pw rest ih =>
    obtain ⟨p, ow⟩ := pw
    cases ow with
    | none => simpa [run_workflows] using ih
    | some w =>
      obtain ⟨n, hn⟩ := ih
      have hs := update_and_import_isSome run p w cred_ids him
      rcases hu : update_and_import_workflow run p w cred_ids with _ | x
      · rw [hu] at hs
        exact absurd hs (by simp)
      · obtain ⟨ok, w', u, tr⟩ := x
        exact ⟨(if ok then 1 else 0) + n, by simp [run_workflows, hu, hn]⟩

/-- C8: for every run whose environment file exists, the orchestrator finishes
with exit code 1 exactly when the credential import fails (in particular when
there is nothing to import), with exit code 0 otherwise; and the exit code is
unchanged under any variation of the return codes of the workflow-import
commands — two run functions agreeing on the two credential commands yield the
same exit code, whatever they do elsewhere. -/
theorem c8_exit_code (run run' : List String → Int) (ido idm idsb idp idc : String)
    (env : List String) (wf1 wf2 : Option Workflow)
    (hcp : run' credCpCmd = run credCpCmd) (himp : run' credImportCmd = run credImportCmd) :
    (∃ imp, mainFn run ido idm idsb idp idc (some env) wf1 wf2
        = some ((if (import_credentials run (deployed_credentials ido idm idsb idp idc env)).1
                 then 0 else 1), imp))
    ∧ (mainFn run' ido idm idsb idp idc (some env) wf1 wf2).map Prod.fst
        = (mainFn run ido idm idsb idp idc (some env) wf1 wf2).map Prod.fst := by
  have hform : ∀ r : List String → Int, mainFn r ido idm idsb idp idc (some env) wf1 wf2
      = (if !(import_credentials r (deployed_credentials ido idm idsb idp idc env)).1
         then some (1, 0)
         else match run_workflows r (mk_cred_ids ido idm idsb idp idc)
            [("workflows/sota/knowledge-graph.json", wf1),
             ("workflows/sota/main-sota-rag.json", wf2)] with
            | none => none
            | some imported => some (0, imported)) := fun r => rfl
  have hagree : (import_credentials run' (deployed_credentials ido idm idsb idp idc env)).1
      = (import_credentials run (deployed_credentials ido idm idsb idp idc env)).1 := by
    rw [import_credentials_agree run run' hcp himp]
  cases himpres : (import_credentials run (deployed_credentials ido idm idsb idp idc env)).1 with
  | false =>
    have h1 : mainFn run ido idm idsb idp idc (some env) wf1 wf2 = some (1, 0) := by
      rw [hform run, himpres]
      rfl
    have h2 : mainFn run' ido idm idsb idp idc (some env) wf1 wf2 = some (1, 0) := by
      rw [hform run', hagree, himpres]
      rfl
    refine ⟨⟨0, ?_⟩, ?_⟩
    · simp [h1, himpres]
    · rw [h1, h2]
  | true =>
    have hsome : (mkIdMap (mk_cred_ids ido idm idsb idp idc)).isSome = true := rfl
    obtain ⟨n, hn⟩ := run_workflows_total run (mk_cred_ids ido idm idsb idp idc) hsome
      [("workflows/sota/knowledge-graph.json", wf1), ("workflows/sota/main-sota-rag.json", wf2)]
    obtain ⟨n', hn'⟩ := run_workflows_total run' (mk_cred_ids ido idm idsb idp idc) hsome
      [("workflows/sota/knowledge-graph.json", wf1), ("workflows/sota/main-sota-rag.json", wf2)]
    have h1 : mainFn run ido idm idsb idp idc (some env) wf1 wf2 = some (0, n) := by
      rw [hform run, himpres]
      simp [hn]
    have h2 : mainFn run' ido idm idsb idp idc (some env) wf1 wf2 = some (0, n') := by
      rw [hform run', hagree, himpres]
      simp [hn']
    refine ⟨⟨n, ?_⟩, ?_⟩
    · simp [h1, himpres]
    · rw [h1, h2]
      rfl

/-- Witness for C8 at concrete inputs: a run function failing every command
(so the credential copy fails and the exit code is 1). -/
theorem c8_witness :
    (∃ imp, mainFn (fun _ => 1) "a" "b" "c" "d" "e" (some ["SERVICE_ROLE_KEY=s"]) none none
        = some ((if (import_credentials (fun _ => 1)
              (deployed_credentials "a" "b" "c" "d" "e" ["SERVICE_ROLE_KEY=s"])).1
            then 0 else 1), imp))
    ∧ (mainFn (fun _ => 1) "a" "b" "c" "d" "e" (some ["SERVICE_ROLE_KEY=s"]) none none).map Prod.fst
        = (mainFn (fun _ => 1) "a" "b" "c" "d" "e" (some ["SERVICE_ROLE_KEY=s"]) none none).map
            Prod.fst :=
  c8_exit_code (fun _ => 1) (fun _ => 1) "a" "b" "c" "d" "e" ["SERVICE_ROLE_KEY=s"] none none
    rfl rfl
